import Mathlib

/-!
Shallow embedding of `archive_pipeline/transform.py`: the table combiner
(`combine_tables`), the per-plant IQR outlier filter (`clean_outliers`) and
the aggregator (`calculate_averages`).

Tables are lists of rows; numeric signal cells are `Option ℚ` where `none`
plays the role of a missing value (NaN): pandas quantile skips missing
values, and every ordered comparison against a missing value is false.
String-valued dimension columns produced by a left join are `Option String`
(`none` is the null marker for an unmatched row).
-/

set_option maxRecDepth 100000

namespace ArchivePipeline

/-- A row of the `Record` fact table. -/
structure RecordRow where
  record_id : Int
  plant_id : Int
  location_id : Int
  botanist_id : Int
  temperature : Option ℚ
  moisture : Option ℚ
  deriving DecidableEq, Repr

/-- A row of the `Plant` dimension table. -/
structure PlantRow where
  plant_id : Int
  common_name : String
  scientific_name : String
  deriving DecidableEq, Repr

/-- A row of the `Location` dimension table. -/
structure LocationRow where
  location_id : Int
  location_name : String
  country_id : Int
  deriving DecidableEq, Repr

/-- A row of the `Country` dimension table. -/
structure CountryRow where
  country_id : Int
  country_name : String
  deriving DecidableEq, Repr

/-- A row of the `Botanist` dimension table. -/
structure BotanistRow where
  botanist_id : Int
  botanist_name : String
  deriving DecidableEq, Repr

/-- A row of the combined (denormalized) table built by `combine_tables`.
Fields contributed by a dimension table are optional: they are `none`
until the corresponding merge fills them, and stay `none` for an
unmatched fact row (pandas' NaN fill of a left join). -/
structure CombinedRow where
  record_id : Int
  plant_id : Int
  location_id : Int
  botanist_id : Int
  temperature : Option ℚ
  moisture : Option ℚ
  common_name : Option String
  scientific_name : Option String
  location_name : Option String
  country_id : Option Int
  country_name : Option String
  botanist_name : Option String
  deriving DecidableEq, Repr

/-- A fact row before any dimension columns have been merged in. -/
def recordToCombined (r : RecordRow) : CombinedRow :=
  { record_id := r.record_id
    plant_id := r.plant_id
    location_id := r.location_id
    botanist_id := r.botanist_id
    temperature := r.temperature
    moisture := r.moisture
    common_name := none
    scientific_name := none
    location_name := none
    country_id := none
    country_name := none
    botanist_name := none }

/-- One step of a pandas left merge (`df.merge(t, on=key, how='left')`):
every left row is matched against all right rows satisfying `km r`;
a row with no match is kept unchanged (its dimension cells stay null),
a row with matches is repeated once per match with `upd` applied. -/
def leftMerge (df : List CombinedRow) (t : List β)
    (km : CombinedRow → β → Bool) (upd : CombinedRow → β → CombinedRow) :
    List CombinedRow :=
  df.flatMap fun r =>
    match t.filter (km r) with
    | [] => [r]
    | ps => ps.map (upd r)

/-- `df.merge(plant_df, on='plant_id', how='left')`. -/
def mergePlant (df : List CombinedRow) (plant : List PlantRow) : List CombinedRow :=
  leftMerge df plant (fun r p => p.plant_id == r.plant_id)
    (fun r p => { r with common_name := some p.common_name,
                         scientific_name := some p.scientific_name })

/-- `df.merge(location_df, on='location_id', how='left')`. -/
def mergeLocation (df : List CombinedRow) (location : List LocationRow) : List CombinedRow :=
  leftMerge df location (fun r l => l.location_id == r.location_id)
    (fun r l => { r with location_name := some l.location_name,
                         country_id := some l.country_id })

/-- `df.merge(country_df, on='country_id', how='left')`; the join key
`country_id` was itself produced by the location merge, so it is optional
and a null key matches no dimension row. -/
def mergeCountry (df : List CombinedRow) (country : List CountryRow) : List CombinedRow :=
  leftMerge df country (fun r c => some c.country_id == r.country_id)
    (fun r c => { r with country_name := some c.country_name })

/-- `df.merge(botanist_df, on='botanist_id', how='left')`. -/
def mergeBotanist (df : List CombinedRow) (botanist : List BotanistRow) : List CombinedRow :=
  leftMerge df botanist (fun r b => b.botanist_id == r.botanist_id)
    (fun r b => { r with botanist_name := some b.botanist_name })

/-- `combine_tables`: the fixed left-join chain
fact → Plant → Location → Country → Botanist. -/
def combine_tables (country_df : List CountryRow) (botanist_df : List BotanistRow)
    (location_df : List LocationRow) (plant_df : List PlantRow)
    (record_df : List RecordRow) : List CombinedRow :=
  mergeBotanist
    (mergeCountry
      (mergeLocation
        (mergePlant (record_df.map recordToCombined) plant_df)
        location_df)
      country_df)
    botanist_df

/-! ### Quantiles and the IQR filter -/

/-- Insert `a` into `l` before the first element it is `le`-below
(insertion-sort step; structural recursion so that it evaluates under
kernel reduction). -/
def insertLE (le : α → α → Bool) (a : α) : List α → List α
  | [] => [a]
  | b :: bs => if le a b then a :: b :: bs else b :: insertLE le a bs

/-- Sort a list ascending with respect to `le` (insertion sort). -/
def sortLE (le : α → α → Bool) : List α → List α
  | [] => []
  | a :: as => insertLE le a (sortLE le as)

/-- `Series.quantile(q)` with the default linear interpolation: missing
values are skipped; on the sorted remaining values `v₀ ≤ … ≤ vₙ₋₁` the
result is `v_i + (h - i) * (v_{i+1} - v_i)` at position `h = q·(n-1)`,
`i = ⌊h⌋`; an all-missing column yields NaN (`none`). -/
def quantile (vs : List ℚ) (q : ℚ) : Option ℚ :=
  let s := sortLE (fun a b => a ≤ b) vs
  match s with
  | [] => none
  | _ =>
    let n := s.length
    let h : ℚ := q * ((n : ℚ) - 1)
    let i : ℕ := (Rat.floor h).toNat
    let lo := s.getD i 0
    let hi := s.getD (i + 1) lo
    some (lo + (h - (i : ℚ)) * (hi - lo))

/-- The non-missing temperature values of a group (quantile input). -/
def tempValues (g : List CombinedRow) : List ℚ := g.filterMap (fun r => r.temperature)

/-- The non-missing moisture values of a group (quantile input). -/
def moistValues (g : List CombinedRow) : List ℚ := g.filterMap (fun r => r.moisture)

/-- `[Q1 - 1.5*IQR, Q3 + 1.5*IQR]`; the bounds are NaN exactly when the
quantiles are (i.e. when every value of the column is missing). -/
def iqrBounds (vs : List ℚ) : Option ℚ × Option ℚ :=
  match quantile vs (1/4), quantile vs (3/4) with
  | some q1, some q3 => (some (q1 - 3/2 * (q3 - q1)), some (q3 + 3/2 * (q3 - q1)))
  | _, _ => (none, none)

/-- The mask `(x >= lower) & (x <= upper)` with pandas NaN semantics:
any comparison involving a missing value is false. -/
def passes (v lo hi : Option ℚ) : Bool :=
  match v, lo, hi with
  | some x, some l, some u => decide (l ≤ x) && decide (x ≤ u)
  | _, _, _ => false

/-- The temperature-filter stage applied to one plant's group. -/
def tempFiltered (g : List CombinedRow) : List CombinedRow :=
  let b := iqrBounds (tempValues g)
  g.filter fun r => passes r.temperature b.1 b.2

/-- The moisture-filter stage applied to one plant's group. -/
def moistFiltered (g : List CombinedRow) : List CombinedRow :=
  let b := iqrBounds (moistValues g)
  g.filter fun r => passes r.moisture b.1 b.2

/-- The body of the `for plant_id, group in df.groupby('plant_id')` loop:
filter temperature on the original group, then moisture on the survivors;
return the twice-filtered rows and the two removed counts. -/
def cleanGroup (g : List CombinedRow) : List CombinedRow × ℕ × ℕ :=
  let g1 := tempFiltered g
  let g2 := moistFiltered g1
  (g2, g.length - g1.length, g1.length - g2.length)

/-- The distinct `plant_id` keys in ascending order (`groupby` sorts keys). -/
def groupKeys (df : List CombinedRow) : List Int :=
  sortLE (fun a b => a ≤ b) ((df.map fun r => r.plant_id).dedup)

/-- One plant's partition, in the original row order. -/
def groupRows (df : List CombinedRow) (k : Int) : List CombinedRow :=
  df.filter fun r => r.plant_id == k

/-- The per-plant counts dict `{'temperature': n, 'moisture': m}`,
modelled as an association list with string keys. -/
abbrev SignalCounts : Type := List (String × ℕ)

/-- The `outlier_counts` dict keyed by plant id. -/
abbrev OutlierCounts : Type := List (Int × SignalCounts)

/-- `d.get(sig, 0)` on a per-plant counts dict. -/
def sigGet (cs : SignalCounts) (sig : String) : ℕ :=
  match List.find? (fun q => q.1 == sig) cs with
  | none => 0
  | some q => q.2

/-- `outlier_counts.get(pid, {}).get(sig, 0)`. -/
def countsGet (oc : OutlierCounts) (pid : Int) (sig : String) : ℕ :=
  match List.find? (fun p => p.1 == pid) oc with
  | none => 0
  | some p => sigGet p.2 sig

/-- Equality on `Except` results is decidable (needed to evaluate the
embedded functions on concrete inputs). -/
instance exceptDecEq {ε α : Type} [DecidableEq ε] [DecidableEq α] :
    DecidableEq (Except ε α)
  | .error e, .error f =>
    if h : e = f then .isTrue (by rw [h]) else
      .isFalse (by intro hc; cases hc; exact h rfl)
  | .ok a, .ok b =>
    if h : a = b then .isTrue (by rw [h]) else
      .isFalse (by intro hc; cases hc; exact h rfl)
  | .error _, .ok _ => .isFalse (by intro hc; cases hc)
  | .ok _, .error _ => .isFalse (by intro hc; cases hc)

/-- `clean_outliers`: iterate over the sorted plant groups, clean each,
concatenate the cleaned groups and collect the counts. `pd.concat`
raises `ValueError: No objects to concatenate` when there is no group,
i.e. when the input has no rows. -/
def clean_outliers (df : List CombinedRow) :
    Except String (List CombinedRow × OutlierCounts) :=
  let ks := groupKeys df
  if ks.isEmpty then
    .error "No objects to concatenate"
  else
    .ok ((ks.map fun k => (cleanGroup (groupRows df k)).1).flatten,
         ks.map fun k =>
           (k, ([("temperature", (cleanGroup (groupRows df k)).2.1),
                 ("moisture", (cleanGroup (groupRows df k)).2.2)] : SignalCounts)))

/-! ### Aggregation -/

/-- An output row of `calculate_averages`. -/
structure AvgRow where
  plant_id : Int
  common_name : String
  scientific_name : String
  avg_temperature : Option ℚ
  avg_moisture : Option ℚ
  temperature_outliers : ℕ
  moisture_outliers : ℕ
  deriving DecidableEq, Repr

/-- The `groupby(['plant_id', 'common_name', 'scientific_name'])` key of a
row; `none` when a name column is null, in which case `groupby` (with its
default `dropna=True`) silently drops the row. -/
def aggKey (r : CombinedRow) : Option (Int × String × String) :=
  match r.common_name, r.scientific_name with
  | some c, some s => some (r.plant_id, c, s)
  | _, _ => none

/-- Lexicographic order on group keys (`groupby` sorts them). -/
def aggKeyLE (a b : Int × String × String) : Bool :=
  a.1 < b.1 || (a.1 == b.1 &&
    (a.2.1 < b.2.1 || (a.2.1 == b.2.1 && (a.2.2 < b.2.2 || a.2.2 == b.2.2))))

/-- The distinct group keys of the cleaned table, in sorted order. -/
def aggKeys (df : List CombinedRow) : List (Int × String × String) :=
  sortLE aggKeyLE ((df.filterMap aggKey).dedup)

/-- The rows of one aggregation group, in the original order. -/
def aggRows (df : List CombinedRow) (k : Int × String × String) : List CombinedRow :=
  df.filter fun r => aggKey r == some k

/-- `Series.mean()`: the arithmetic mean of the non-missing cells,
NaN (`none`) when every cell is missing. -/
def seriesMean (vs : List (Option ℚ)) : Option ℚ :=
  let xs := vs.filterMap id
  match xs with
  | [] => none
  | _ => some (xs.sum / (xs.length : ℚ))

/-- Round a rational to the nearest integer, ties to even
(the rounding of `Series.round`). -/
def roundHalfEven (x : ℚ) : Int :=
  let f := Rat.floor x
  let r := x - (f : ℚ)
  if r < 1/2 then f
  else if 1/2 < r then f + 1
  else if 2 ∣ f then f else f + 1

/-- `Series.round(2)`. -/
def round2 (x : ℚ) : ℚ := (roundHalfEven (100 * x) : ℚ) / 100

/-- `calculate_averages`: group the cleaned rows by
(plant_id, common_name, scientific_name), take the per-group means of
temperature and moisture, attach the outlier counts from the map
(defaulting to 0 for an absent key) and round the means to 2 decimals.
The `original_df` argument is accepted and ignored, as in the source. -/
def calculate_averages (original_df cleaned_df : List CombinedRow)
    (outlier_counts : OutlierCounts) : List AvgRow :=
  (aggKeys cleaned_df).map fun k =>
    let g := aggRows cleaned_df k
    { plant_id := k.1
      common_name := k.2.1
      scientific_name := k.2.2
      avg_temperature := (seriesMean (g.map fun r => r.temperature)).map round2
      avg_moisture := (seriesMean (g.map fun r => r.moisture)).map round2
      temperature_outliers := countsGet outlier_counts k.1 "temperature"
      moisture_outliers := countsGet outlier_counts k.1 "moisture" }

/-! ### Concrete data for witnesses and scenarios -/

/-- A combined row carrying only the fields the filter and aggregator
read (plant id, signal values, names); the record-keeping fields are
fixed. -/
def mkRec (rid pid : Int) (t m : ℚ) : CombinedRow :=
  { record_id := rid, plant_id := pid, location_id := 1, botanist_id := 1,
    temperature := some t, moisture := some m,
    common_name := some "Rose", scientific_name := some "Rosa",
    location_name := none, country_id := none, country_name := none,
    botanist_name := none }

/-- Entity 1 with temperatures `[20, 21, 22, 50, 19]` and in-bounds
moisture (the spec's concrete scenario). -/
def dfEntityOne : List CombinedRow :=
  [mkRec 1 1 20 60, mkRec 2 1 21 60, mkRec 3 1 22 60,
   mkRec 4 1 50 60, mkRec 5 1 19 60]

/-- The rows of `dfEntityOne` surviving both filters. -/
def cleanedEntityOne : List CombinedRow :=
  [mkRec 1 1 20 60, mkRec 2 1 21 60, mkRec 3 1 22 60, mkRec 5 1 19 60]

/-- The outlier counts `clean_outliers` records for `dfEntityOne`. -/
def countsEntityOne : OutlierCounts :=
  [(1, [("temperature", 1), ("moisture", 0)])]

/-- A row of entity 1 whose temperature is missing (NaN). -/
def nanRow : CombinedRow :=
  { record_id := 9, plant_id := 1, location_id := 1, botanist_id := 1,
    temperature := none, moisture := some 60,
    common_name := some "Rose", scientific_name := some "Rosa",
    location_name := none, country_id := none, country_name := none,
    botanist_name := none }

/-- Two entities with disjoint value ranges. -/
def dfTwoEntities : List CombinedRow :=
  dfEntityOne ++ [mkRec 6 2 10 50, mkRec 7 2 11 50]

/-- Same as `dfTwoEntities` with an extreme value in entity 2. -/
def dfTwoEntitiesExtreme : List CombinedRow :=
  dfEntityOne ++ [mkRec 6 2 1000 50, mkRec 7 2 11 50]

/-- Cleaned rows of `dfTwoEntities`. -/
def cleanedTwoEntities : List CombinedRow :=
  cleanedEntityOne ++ [mkRec 6 2 10 50, mkRec 7 2 11 50]

/-- Cleaned rows of `dfTwoEntitiesExtreme` (with only two points, entity 2's
IQR band is wide enough to keep the extreme value). -/
def cleanedTwoExtreme : List CombinedRow :=
  cleanedEntityOne ++ [mkRec 6 2 1000 50, mkRec 7 2 11 50]

/-- Outlier counts for both two-entity tables. -/
def countsTwoEntities : OutlierCounts :=
  [(1, [("temperature", 1), ("moisture", 0)]),
   (2, [("temperature", 0), ("moisture", 0)])]

/-- The aggregator's output row for the concrete scenario. -/
def avgRowOne : AvgRow :=
  { plant_id := 1, common_name := "Rose", scientific_name := "Rosa",
    avg_temperature := some (41/2), avg_moisture := some 60,
    temperature_outliers := 1, moisture_outliers := 0 }

/-- A cleaned table in which one plant id appears under two different
common names. -/
def cexCleaned : List CombinedRow :=
  [mkRec 1 1 20 60, { mkRec 2 1 21 60 with common_name := some "Tulip" }]

/-- A plant dimension table with a duplicated key. -/
def cexPlantDup : List PlantRow :=
  [{ plant_id := 1, common_name := "Rose", scientific_name := "Rosa" },
   { plant_id := 1, common_name := "Rose B", scientific_name := "Rosa B" }]

/-- A one-row fact table. -/
def cexRecordOne : List RecordRow :=
  [{ record_id := 1, plant_id := 1, location_id := 1, botanist_id := 1,
     temperature := some 20, moisture := some 60 }]

/-- Witness dimension and fact tables with unique keys. -/
def wCountry : List CountryRow := [{ country_id := 1, country_name := "USA" }]

def wBotanist : List BotanistRow := [{ botanist_id := 1, botanist_name := "Alice" }]

def wLocation : List LocationRow :=
  [{ location_id := 1, location_name := "Garden A", country_id := 1 }]

def wPlant : List PlantRow :=
  [{ plant_id := 1, common_name := "Rose", scientific_name := "Rosa" }]

def wRecord : List RecordRow :=
  [{ record_id := 1, plant_id := 1, location_id := 1, botanist_id := 1,
     temperature := some 20, moisture := some 60 },
   { record_id := 2, plant_id := 7, location_id := 1, botanist_id := 1,
     temperature := some 21, moisture := some 61 }]

/-- The second witness fact row; its plant id 7 matches no Plant row. -/
def wRec2 : RecordRow :=
  { record_id := 2, plant_id := 7, location_id := 1, botanist_id := 1,
    temperature := some 21, moisture := some 61 }

/-! ### Basic lemmas about the embedding -/

theorem insertLE_perm (le : α → α → Bool) (a : α) (l : List α) :
    (insertLE le a l).Perm (a :: l) := by
  induction l with
  | nil => simp [insertLE]
  | cons b bs ih =>
    by_cases h : le a b = true
    · simp [insertLE, h]
    · simp only [insertLE, h]
      rw [if_neg (by simp [h])]
      exact (ih.cons b).trans (List.Perm.swap a b bs)

theorem sortLE_perm (le : α → α → Bool) (l : List α) : (sortLE le l).Perm l := by
  induction l with
  | nil => simp [sortLE]
  | cons a as ih => exact (insertLE_perm le a (sortLE le as)).trans (ih.cons a)

theorem mem_sortLE {le : α → α → Bool} {l : List α} {x : α} :
    x ∈ sortLE le l ↔ x ∈ l :=
  (sortLE_perm le l).mem_iff

theorem sortLE_nodup {le : α → α → Bool} {l : List α} (h : l.Nodup) :
    (sortLE le l).Nodup :=
  ((sortLE_perm le l).nodup_iff).mpr h

theorem mem_groupKeys {df : List CombinedRow} {e : Int} :
    e ∈ groupKeys df ↔ ∃ r ∈ df, r.plant_id = e := by
  unfold groupKeys
  rw [mem_sortLE, List.mem_dedup, List.mem_map]

theorem groupKeys_nodup (df : List CombinedRow) : (groupKeys df).Nodup :=
  sortLE_nodup (List.nodup_dedup _)

theorem groupRows_eq_nil {df : List CombinedRow} {e : Int}
    (h : e ∉ groupKeys df) : groupRows df e = [] := by
  unfold groupRows
  rw [List.filter_eq_nil_iff]
  intro r hr hbeq
  exact h (mem_groupKeys.mpr ⟨r, hr, by simpa using hbeq⟩)

theorem groupKeys_of_groupRows_ne_nil {df : List CombinedRow} {e : Int}
    (h : groupRows df e ≠ []) : e ∈ groupKeys df := by
  by_contra hc
  exact h (groupRows_eq_nil hc)

theorem mem_groupRows {df : List CombinedRow} {e : Int} {r : CombinedRow} :
    r ∈ groupRows df e ↔ r ∈ df ∧ r.plant_id = e := by
  unfold groupRows
  rw [List.mem_filter]
  simp

theorem tempFiltered_length_le (g : List CombinedRow) :
    (tempFiltered g).length ≤ g.length :=
  List.length_filter_le _ _

theorem moistFiltered_length_le (g : List CombinedRow) :
    (moistFiltered g).length ≤ g.length :=
  List.length_filter_le _ _

theorem mem_tempFiltered {g : List CombinedRow} {r : CombinedRow} :
    r ∈ tempFiltered g ↔ r ∈ g ∧
      passes r.temperature (iqrBounds (tempValues g)).1 (iqrBounds (tempValues g)).2 = true := by
  unfold tempFiltered
  exact List.mem_filter

theorem mem_moistFiltered {g : List CombinedRow} {r : CombinedRow} :
    r ∈ moistFiltered g ↔ r ∈ g ∧
      passes r.moisture (iqrBounds (moistValues g)).1 (iqrBounds (moistValues g)).2 = true := by
  unfold moistFiltered
  exact List.mem_filter

theorem mem_cleanGroup {g : List CombinedRow} {r : CombinedRow}
    (h : r ∈ (cleanGroup g).1) : r ∈ g :=
  (mem_tempFiltered.mp (mem_moistFiltered.mp h).1).1

/-- Inversion of a successful `clean_outliers` run: the cleaned table and
the counts map are the concatenation / collection over the sorted groups. -/
theorem clean_outliers_ok {df : List CombinedRow}
    {c : List CombinedRow} {m : OutlierCounts}
    (h : clean_outliers df = .ok (c, m)) :
    c = ((groupKeys df).map fun k => (cleanGroup (groupRows df k)).1).flatten ∧
    m = (groupKeys df).map (fun k =>
          (k, ([("temperature", (cleanGroup (groupRows df k)).2.1),
                ("moisture", (cleanGroup (groupRows df k)).2.2)] : SignalCounts))) := by
  unfold clean_outliers at h
  by_cases he : (groupKeys df).isEmpty = true
  · rw [if_pos he] at h
    cases h
  · rw [if_neg he] at h
    injection h with h'
    injection h' with h1 h2
    exact ⟨h1.symm, h2.symm⟩

theorem find?_map_pair (ks : List Int) (f : Int → SignalCounts) (e : Int) :
    ((ks.map fun k => (k, f k)).find? fun p => p.1 == e) =
      (ks.find? fun k => k == e).map fun k => (k, f k) := by
  induction ks with
  | nil => rfl
  | cons k ks ih =>
    by_cases h : k = e
    · subst h
      simp [List.find?]
    · rw [List.map_cons, List.find?_cons_of_neg _ (by simp [h]),
        List.find?_cons_of_neg _ (by simp [h]), ih]

theorem find?_beq_self (ks : List Int) (e : Int) :
    (ks.find? fun k => k == e) = if e ∈ ks then some e else none := by
  induction ks with
  | nil => rfl
  | cons k ks ih =>
    by_cases h : k = e
    · subst h
      simp [List.find?]
    · rw [List.find?_cons_of_neg _ (by simp [h]), ih]
      by_cases he : e ∈ ks
      · rw [if_pos he, if_pos (List.mem_cons.mpr (Or.inr he))]
      · rw [if_neg he, if_neg (by simp [List.mem_cons, Ne.symm h, he])]

/-- What `countsGet` returns on the map produced by `clean_outliers`. -/
theorem countsGet_clean {df : List CombinedRow} {c : List CombinedRow}
    {m : OutlierCounts} (h : clean_outliers df = .ok (c, m)) (e : Int) :
    countsGet m e "temperature" =
      (if e ∈ groupKeys df then (cleanGroup (groupRows df e)).2.1 else 0) ∧
    countsGet m e "moisture" =
      (if e ∈ groupKeys df then (cleanGroup (groupRows df e)).2.2 else 0) := by
  obtain ⟨-, hm⟩ := clean_outliers_ok h
  subst hm
  unfold countsGet
  rw [find?_map_pair, find?_beq_self]
  by_cases he : e ∈ groupKeys df
  · rw [if_pos he, if_pos he, if_pos he]
    refine ⟨?_, ?_⟩ <;> simp [sigGet, List.find?]
  · rw [if_neg he, if_neg he, if_neg he]
    exact ⟨rfl, rfl⟩

/-- Filtering a concatenation of per-key groups for one key returns that
key's group (empty when the key is absent). -/
theorem filter_flatten_groups (ks : List Int) (f : Int → List CombinedRow)
    (hf : ∀ k, ∀ x ∈ f k, x.plant_id = k) (hnd : ks.Nodup) (e : Int) :
    ((ks.map f).flatten.filter fun r => r.plant_id == e) =
      if e ∈ ks then f e else [] := by
  induction ks with
  | nil => simp
  | cons k ks ih =>
    obtain ⟨hk, hnd'⟩ := List.nodup_cons.mp hnd
    rw [List.map_cons, List.flatten_cons, List.filter_append, ih hnd']
    by_cases hke : k = e
    · subst hke
      rw [List.filter_eq_self.mpr (fun x hx => by simp [hf k x hx]),
        if_neg hk, if_pos (List.mem_cons_self k ks), List.append_nil]
    · rw [List.filter_eq_nil_iff.mpr (fun x hx => by simp [hf k x hx, hke]),
        List.nil_append]
      by_cases he : e ∈ ks
      · rw [if_pos he, if_pos (List.mem_cons.mpr (Or.inr he))]
      · rw [if_neg he, if_neg (by simp [List.mem_cons, Ne.symm hke, he])]

/-- The rows of the cleaned table carrying a given plant id are exactly the
cleaned rows of that plant's original partition. -/
theorem groupRows_clean {df : List CombinedRow} {c : List CombinedRow}
    {m : OutlierCounts} (h : clean_outliers df = .ok (c, m)) (e : Int) :
    groupRows c e = (cleanGroup (groupRows df e)).1 := by
  obtain ⟨hc, -⟩ := clean_outliers_ok h
  subst hc
  show (((groupKeys df).map fun k => (cleanGroup (groupRows df k)).1).flatten.filter
      fun r => r.plant_id == e) = (cleanGroup (groupRows df e)).1
  rw [filter_flatten_groups (groupKeys df)
    (fun k => (cleanGroup (groupRows df k)).1)
    (fun k x hx => (mem_groupRows.mp (mem_cleanGroup hx)).2)
    (groupKeys_nodup df) e]
  by_cases he : e ∈ groupKeys df
  · rw [if_pos he]
  · rw [if_neg he, groupRows_eq_nil he]
    rfl

/-! ### The claims -/

/-- C1: for every entity, the moisture quartiles are computed on the
already temperature-filtered subset, so the recorded moisture outlier
count is at most the entity's original row count minus its temperature
outlier count. -/
theorem moisture_outliers_le_temp_survivors
    (df c : List CombinedRow) (m : OutlierCounts)
    (h : clean_outliers df = .ok (c, m)) (e : Int) :
    countsGet m e "moisture" ≤
      (groupRows df e).length - countsGet m e "temperature" := by
  obtain ⟨ht, hm⟩ := countsGet_clean h e
  rw [ht, hm]
  by_cases he : e ∈ groupKeys df
  · rw [if_pos he, if_pos he]
    have hdef : (cleanGroup (groupRows df e)).2 =
        ((groupRows df e).length - (tempFiltered (groupRows df e)).length,
         (tempFiltered (groupRows df e)).length -
           (moistFiltered (tempFiltered (groupRows df e))).length) := rfl
    rw [hdef]
    have h1 := tempFiltered_length_le (groupRows df e)
    have h2 := moistFiltered_length_le (tempFiltered (groupRows df e))
    simp only
    omega
  · rw [if_neg he, if_neg he]
    omega

/-- Witness for C1 on the concrete scenario table. -/
theorem moisture_outliers_le_temp_survivors_witness :
    clean_outliers dfEntityOne = .ok (cleanedEntityOne, countsEntityOne) ∧
    countsGet countsEntityOne 1 "moisture" ≤
      (groupRows dfEntityOne 1).length -
        countsGet countsEntityOne 1 "temperature" :=
  ⟨by with_unfolding_all decide,
   moisture_outliers_le_temp_survivors dfEntityOne cleanedEntityOne
     countsEntityOne (by with_unfolding_all decide) 1⟩

/-- C3: for every entity, the recorded temperature outlier count plus the
number of rows surviving the temperature filter equals the entity's
original row count. -/
theorem temp_outliers_plus_survivors_eq_original
    (df c : List CombinedRow) (m : OutlierCounts)
    (h : clean_outliers df = .ok (c, m)) (e : Int) :
    countsGet m e "temperature" + (tempFiltered (groupRows df e)).length =
      (groupRows df e).length := by
  obtain ⟨ht, -⟩ := countsGet_clean h e
  rw [ht]
  by_cases he : e ∈ groupKeys df
  · rw [if_pos he]
    have hdef : (cleanGroup (groupRows df e)).2.1 =
        (groupRows df e).length - (tempFiltered (groupRows df e)).length := rfl
    rw [hdef]
    have h1 := tempFiltered_length_le (groupRows df e)
    omega
  · rw [if_neg he, groupRows_eq_nil he]
    rfl

/-- Witness for C3 on the concrete scenario table. -/
theorem temp_outliers_plus_survivors_eq_original_witness :
    clean_outliers dfEntityOne = .ok (cleanedEntityOne, countsEntityOne) ∧
    countsGet countsEntityOne 1 "temperature" +
        (tempFiltered (groupRows dfEntityOne 1)).length =
      (groupRows dfEntityOne 1).length :=
  ⟨by with_unfolding_all decide,
   temp_outliers_plus_survivors_eq_original dfEntityOne cleanedEntityOne
     countsEntityOne (by with_unfolding_all decide) 1⟩

/-- C2: for an entity partition with at least 4 rows, every temperature
value still present in that entity's cleaned rows lies within
`[Q1 - 1.5*IQR, Q3 + 1.5*IQR]` computed from the partition's original,
pre-filter temperature values. -/
theorem cleaned_temps_within_original_bounds
    (df c : List CombinedRow) (m : OutlierCounts)
    (h : clean_outliers df = .ok (c, m)) (e : Int)
    (hlen : 4 ≤ (groupRows df e).length)
    (r : CombinedRow) (hr : r ∈ groupRows c e) :
    ∃ t l u, r.temperature = some t ∧
      (iqrBounds (tempValues (groupRows df e))).1 = some l ∧
      (iqrBounds (tempValues (groupRows df e))).2 = some u ∧
      l ≤ t ∧ t ≤ u := by
  rw [groupRows_clean h] at hr
  have hr1 : r ∈ tempFiltered (groupRows df e) := (mem_moistFiltered.mp hr).1
  have hp := (mem_tempFiltered.mp hr1).2
  cases hv : r.temperature with
  | none => rw [hv] at hp; simp [passes] at hp
  | some t =>
    rw [hv] at hp
    cases hl : (iqrBounds (tempValues (groupRows df e))).1 with
    | none => rw [hl] at hp; simp [passes] at hp
    | some l =>
      rw [hl] at hp
      cases hu : (iqrBounds (tempValues (groupRows df e))).2 with
      | none => rw [hu] at hp; simp [passes] at hp
      | some u =>
        rw [hu] at hp
        simp [passes] at hp
        exact ⟨t, l, u, rfl, rfl, rfl, hp.1, hp.2⟩

/-- Witness for C2: entity 1 of the concrete scenario table has 5 rows and
the surviving row with temperature 20 is within the original bounds. -/
theorem cleaned_temps_within_original_bounds_witness :
    clean_outliers dfEntityOne = .ok (cleanedEntityOne, countsEntityOne) ∧
    4 ≤ (groupRows dfEntityOne 1).length ∧
    mkRec 1 1 20 60 ∈ groupRows cleanedEntityOne 1 ∧
    ∃ t l u, (mkRec 1 1 20 60).temperature = some t ∧
      (iqrBounds (tempValues (groupRows dfEntityOne 1))).1 = some l ∧
      (iqrBounds (tempValues (groupRows dfEntityOne 1))).2 = some u ∧
      l ≤ t ∧ t ≤ u :=
  ⟨by with_unfolding_all decide, by with_unfolding_all decide,
   by with_unfolding_all decide,
   cleaned_temps_within_original_bounds dfEntityOne cleanedEntityOne
     countsEntityOne (by with_unfolding_all decide) 1
     (by with_unfolding_all decide) (mkRec 1 1 20 60)
     (by with_unfolding_all decide)⟩

/-- C4: on the concrete five-row input for entity 1 with temperatures
`[20, 21, 22, 50, 19]`, `clean_outliers` computes Q1 = 20, Q3 = 22,
bounds `[17, 25]`, removes exactly the row with temperature 50, records
one temperature outlier, and `calculate_averages` reports the mean of the
remaining four temperatures as 20.5. -/
theorem concrete_scenario_entity_one :
    quantile (tempValues dfEntityOne) (1/4) = some 20 ∧
    quantile (tempValues dfEntityOne) (3/4) = some 22 ∧
    iqrBounds (tempValues dfEntityOne) = (some 17, some 25) ∧
    clean_outliers dfEntityOne = .ok (cleanedEntityOne, countsEntityOne) ∧
    countsGet countsEntityOne 1 "temperature" = 1 ∧
    (calculate_averages dfEntityOne cleanedEntityOne countsEntityOne).map
      (fun r => r.avg_temperature) = [some (41/2)] := by
  with_unfolding_all decide

/-- C5 (code bug): on a zero-row input, `combine_tables` and
`calculate_averages` return correctly-typed empty tables, but
`clean_outliers` builds an empty list of group frames and `pd.concat`
of no objects raises instead of returning an empty result. -/
theorem empty_input_behavior :
    combine_tables [] [] [] [] [] = ([] : List CombinedRow) ∧
    clean_outliers ([] : List CombinedRow) = .error "No objects to concatenate" ∧
    calculate_averages [] [] [] = ([] : List AvgRow) := by
  with_unfolding_all decide

theorem length_filter_add_length_filter_not (l : List α) (p : α → Bool) :
    (l.filter p).length + (l.filter fun a => !(p a)).length = l.length := by
  induction l with
  | nil => rfl
  | cons a as ih =>
    by_cases h : p a = true
    · rw [List.filter_cons_of_pos h, List.filter_cons_of_neg (by simp [h])]
      simp only [List.length_cons]
      omega
    · rw [List.filter_cons_of_neg h, List.filter_cons_of_pos (by simp [h])]
      simp only [List.length_cons]
      omega

theorem length_filter_le_of_imp {p q : α → Bool} (l : List α)
    (h : ∀ a, p a = true → q a = true) :
    (l.filter p).length ≤ (l.filter q).length := by
  induction l with
  | nil => exact Nat.le_refl 0
  | cons a as ih =>
    by_cases hp : p a = true
    · rw [List.filter_cons_of_pos hp, List.filter_cons_of_pos (h a hp)]
      simpa using ih
    · rw [List.filter_cons_of_neg hp]
      cases hq : q a
      · rw [List.filter_cons_of_neg (by simp [hq])]
        exact ih
      · rw [List.filter_cons_of_pos hq]
        exact ih.trans (Nat.le_succ _)

/-- The temperature stage removes `g.length - (tempFiltered g).length`
rows, and at least every row whose temperature is missing is among them. -/
theorem nan_rows_removed_by_temp_stage (g : List CombinedRow) :
    (g.filter fun r => r.temperature.isNone).length ≤
      g.length - (tempFiltered g).length := by
  have h1 : (g.filter fun r => r.temperature.isNone).length ≤
      (g.filter fun r =>
        !(passes r.temperature (iqrBounds (tempValues g)).1
            (iqrBounds (tempValues g)).2)).length := by
    refine length_filter_le_of_imp g fun r hr => ?_
    have hnone : r.temperature = none := by
      cases hv : r.temperature
      · rfl
      · rw [hv] at hr; cases hr
    rw [hnone]
    rfl
  have h2 := length_filter_add_length_filter_not g
    (fun r => passes r.temperature (iqrBounds (tempValues g)).1
      (iqrBounds (tempValues g)).2)
  have h3 : (tempFiltered g).length =
      (g.filter fun r => passes r.temperature (iqrBounds (tempValues g)).1
        (iqrBounds (tempValues g)).2).length := rfl
  omega

/-- Moisture analogue of `nan_rows_removed_by_temp_stage`. -/
theorem nan_rows_removed_by_moist_stage (g : List CombinedRow) :
    (g.filter fun r => r.moisture.isNone).length ≤
      g.length - (moistFiltered g).length := by
  have h1 : (g.filter fun r => r.moisture.isNone).length ≤
      (g.filter fun r =>
        !(passes r.moisture (iqrBounds (moistValues g)).1
            (iqrBounds (moistValues g)).2)).length := by
    refine length_filter_le_of_imp g fun r hr => ?_
    have hnone : r.moisture = none := by
      cases hv : r.moisture
      · rfl
      · rw [hv] at hr; cases hr
    rw [hnone]
    rfl
  have h2 := length_filter_add_length_filter_not g
    (fun r => passes r.moisture (iqrBounds (moistValues g)).1
      (iqrBounds (moistValues g)).2)
  have h3 : (moistFiltered g).length =
      (g.filter fun r => passes r.moisture (iqrBounds (moistValues g)).1
        (iqrBounds (moistValues g)).2).length := rfl
  omega

/-- C10: missing-value policy of `clean_outliers`. Quantiles ignore NaN
cells (prepending a NaN-temperature row leaves the temperature bounds
unchanged), yet a NaN cell fails the bounds mask: no surviving row has a
NaN temperature, every NaN-temperature row is counted as a temperature
outlier, no surviving row has a NaN moisture, and every
temperature-surviving row with NaN moisture is counted as a moisture
outlier. -/
theorem nan_policy (g : List CombinedRow) (r0 : CombinedRow)
    (h : r0.temperature = none) :
    iqrBounds (tempValues (r0 :: g)) = iqrBounds (tempValues g) ∧
    (∀ r ∈ tempFiltered (r0 :: g), r.temperature ≠ none) ∧
    ((r0 :: g).filter fun r => r.temperature.isNone).length ≤
      (cleanGroup (r0 :: g)).2.1 ∧
    (∀ r ∈ (cleanGroup (r0 :: g)).1, r.moisture ≠ none) ∧
    ((tempFiltered (r0 :: g)).filter fun r => r.moisture.isNone).length ≤
      (cleanGroup (r0 :: g)).2.2 := by
  refine ⟨?_, ?_, ?_, ?_, ?_⟩
  · unfold tempValues
    rw [List.filterMap_cons, h]
  · intro r hr hnone
    have hp := (mem_tempFiltered.mp hr).2
    rw [hnone] at hp
    cases (iqrBounds (tempValues (r0 :: g))).1 <;>
      cases (iqrBounds (tempValues (r0 :: g))).2 <;> cases hp
  · exact nan_rows_removed_by_temp_stage (r0 :: g)
  · intro r hr hnone
    have hp := (mem_moistFiltered.mp hr).2
    rw [hnone] at hp
    cases (iqrBounds (moistValues (tempFiltered (r0 :: g)))).1 <;>
      cases (iqrBounds (moistValues (tempFiltered (r0 :: g)))).2 <;> cases hp
  · exact nan_rows_removed_by_moist_stage (tempFiltered (r0 :: g))

/-- Witness for C10: a NaN-temperature row prepended to the concrete
scenario table. -/
theorem nan_policy_witness :
    nanRow.temperature = none ∧
    (iqrBounds (tempValues (nanRow :: dfEntityOne)) =
        iqrBounds (tempValues dfEntityOne) ∧
      (∀ r ∈ tempFiltered (nanRow :: dfEntityOne), r.temperature ≠ none) ∧
      ((nanRow :: dfEntityOne).filter fun r => r.temperature.isNone).length ≤
        (cleanGroup (nanRow :: dfEntityOne)).2.1 ∧
      (∀ r ∈ (cleanGroup (nanRow :: dfEntityOne)).1, r.moisture ≠ none) ∧
      ((tempFiltered (nanRow :: dfEntityOne)).filter
          fun r => r.moisture.isNone).length ≤
        (cleanGroup (nanRow :: dfEntityOne)).2.2) :=
  ⟨rfl, nan_policy dfEntityOne nanRow rfl⟩

theorem mem_groupKeys_iff {df : List CombinedRow} {e : Int} :
    e ∈ groupKeys df ↔ groupRows df e ≠ [] := by
  constructor
  · intro he hnil
    obtain ⟨r, hr, hid⟩ := mem_groupKeys.mp he
    have : r ∈ groupRows df e := mem_groupRows.mpr ⟨hr, hid⟩
    rw [hnil] at this
    cases this
  · exact groupKeys_of_groupRows_ne_nil

/-- C9: entity partitions are filtered independently. If two inputs agree
on entity `e`'s rows, then after `clean_outliers` the cleaned rows of
entity `e` and its recorded temperature and moisture outlier counts are
identical across the two runs, whatever the other entities contain. -/
theorem partition_independence
    (df df' c c' : List CombinedRow) (m m' : OutlierCounts)
    (h : clean_outliers df = .ok (c, m))
    (h' : clean_outliers df' = .ok (c', m'))
    (e : Int) (hagree : groupRows df e = groupRows df' e) :
    groupRows c e = groupRows c' e ∧
    countsGet m e "temperature" = countsGet m' e "temperature" ∧
    countsGet m e "moisture" = countsGet m' e "moisture" := by
  obtain ⟨ht, hmo⟩ := countsGet_clean h e
  obtain ⟨ht', hmo'⟩ := countsGet_clean h' e
  have hmem : (e ∈ groupKeys df) ↔ (e ∈ groupKeys df') := by
    rw [mem_groupKeys_iff, mem_groupKeys_iff, hagree]
  refine ⟨?_, ?_, ?_⟩
  · rw [groupRows_clean h, groupRows_clean h', hagree]
  · by_cases he : e ∈ groupKeys df
    · rw [ht, ht', if_pos he, if_pos (hmem.mp he), hagree]
    · rw [ht, ht', if_neg he, if_neg (fun hx => he (hmem.mpr hx))]
  · by_cases he : e ∈ groupKeys df
    · rw [hmo, hmo', if_pos he, if_pos (hmem.mp he), hagree]
    · rw [hmo, hmo', if_neg he, if_neg (fun hx => he (hmem.mpr hx))]

/-- Witness for C9: the two-entity tables agree on entity 1 and differ by
an extreme value in entity 2; entity 1's cleaned rows and counts agree. -/
theorem partition_independence_witness :
    clean_outliers dfTwoEntities = .ok (cleanedTwoEntities, countsTwoEntities) ∧
    clean_outliers dfTwoEntitiesExtreme = .ok (cleanedTwoExtreme, countsTwoEntities) ∧
    groupRows dfTwoEntities 1 = groupRows dfTwoEntitiesExtreme 1 ∧
    (groupRows cleanedTwoEntities 1 = groupRows cleanedTwoExtreme 1 ∧
      countsGet countsTwoEntities 1 "temperature" =
        countsGet countsTwoEntities 1 "temperature" ∧
      countsGet countsTwoEntities 1 "moisture" =
        countsGet countsTwoEntities 1 "moisture") :=
  ⟨by with_unfolding_all decide, by with_unfolding_all decide,
   by with_unfolding_all decide,
   partition_independence dfTwoEntities dfTwoEntitiesExtreme
     cleanedTwoEntities cleanedTwoExtreme countsTwoEntities countsTwoEntities
     (by with_unfolding_all decide) (by with_unfolding_all decide) 1
     (by with_unfolding_all decide)⟩

theorem mem_aggKeys {c : List CombinedRow} {k : Int × String × String} :
    k ∈ aggKeys c ↔ k ∈ c.filterMap aggKey := by
  unfold aggKeys
  rw [mem_sortLE, List.mem_dedup]

theorem aggKeys_nodup (c : List CombinedRow) : (aggKeys c).Nodup :=
  sortLE_nodup (List.nodup_dedup _)

theorem length_filter_beq_of_nodup {α : Type} [BEq α] [LawfulBEq α]
    [DecidableEq α] {l : List α}
    (h : l.Nodup) (k : α) :
    (l.filter fun x => x == k).length = if k ∈ l then 1 else 0 := by
  induction l with
  | nil => simp
  | cons a as ih =>
    obtain ⟨ha, h'⟩ := List.nodup_cons.mp h
    by_cases hak : a = k
    · subst hak
      rw [List.filter_cons_of_pos (by simp), List.length_cons, ih h',
        if_neg ha, if_pos (List.mem_cons_self a as)]
    · rw [List.filter_cons_of_neg (by simp [hak]), ih h']
      by_cases hk : k ∈ as
      · rw [if_pos hk, if_pos (List.mem_cons.mpr (Or.inr hk))]
      · rw [if_neg hk, if_neg (by simp [List.mem_cons, Ne.symm hak, hk])]

/-- C6 (amended): `calculate_averages` emits exactly one row per distinct
(plant_id, common_name, scientific_name) triple among the cleaned rows
whose name columns are non-null; this equals one row per distinct entity
identifier only when each plant id carries a single name pair. -/
theorem aggregator_one_row_per_key (o c : List CombinedRow)
    (m : OutlierCounts) (k : Int × String × String) :
    ((calculate_averages o c m).filter fun r =>
        (r.plant_id, r.common_name, r.scientific_name) == k).length =
      if k ∈ c.filterMap aggKey then 1 else 0 := by
  unfold calculate_averages
  rw [List.filter_map, List.length_map]
  show ((aggKeys c).filter fun k' => k' == k).length = _
  rw [length_filter_beq_of_nodup (aggKeys_nodup c) k]
  by_cases hk : k ∈ c.filterMap aggKey
  · rw [if_pos hk, if_pos (mem_aggKeys.mpr hk)]
  · rw [if_neg hk, if_neg (fun hx => hk (mem_aggKeys.mp hx))]

/-- Counterexample for C6 as stated: one plant id appearing under two
different common names yields two output rows, not one per distinct
entity identifier. -/
theorem aggregator_rowcount_counterexample :
    (calculate_averages [] cexCleaned []).length ≠
      ((cexCleaned.map fun r => r.plant_id).dedup).length := by
  with_unfolding_all decide

/-- Every output row's outlier-count columns are the dict lookups of its
plant id in the outlier-count map. -/
theorem calculate_averages_counts (o c : List CombinedRow)
    (m : OutlierCounts) (row : AvgRow)
    (hrow : row ∈ calculate_averages o c m) :
    row.temperature_outliers = countsGet m row.plant_id "temperature" ∧
    row.moisture_outliers = countsGet m row.plant_id "moisture" := by
  unfold calculate_averages at hrow
  obtain ⟨k, -, rfl⟩ := List.mem_map.mp hrow
  exact ⟨rfl, rfl⟩

/-- C7: an output row whose entity key is absent from the outlier-count
map carries zero for both outlier columns; a row whose entity key is
present carries exactly the dict's recorded count for each signal
(itself defaulting to 0 when the signal key is missing). -/
theorem aggregator_counts_default (o c : List CombinedRow)
    (m : OutlierCounts) (row : AvgRow)
    (hrow : row ∈ calculate_averages o c m) :
    (List.find? (fun p => p.1 == row.plant_id) m = none →
      row.temperature_outliers = 0 ∧ row.moisture_outliers = 0) ∧
    (∀ d, List.find? (fun p => p.1 == row.plant_id) m = some d →
      row.temperature_outliers = sigGet d.2 "temperature" ∧
      row.moisture_outliers = sigGet d.2 "moisture") := by
  obtain ⟨h1, h2⟩ := calculate_averages_counts o c m row hrow
  rw [h1, h2]
  constructor
  · intro hnone
    unfold countsGet
    rw [hnone]
    exact ⟨rfl, rfl⟩
  · intro d hd
    unfold countsGet
    rw [hd]
    exact ⟨rfl, rfl⟩

/-- Witness for C7: the concrete scenario's single output row, whose
entity key is present in the map. -/
theorem aggregator_counts_default_witness :
    avgRowOne ∈ calculate_averages dfEntityOne cleanedEntityOne countsEntityOne ∧
    ((List.find? (fun p => p.1 == avgRowOne.plant_id) countsEntityOne = none →
        avgRowOne.temperature_outliers = 0 ∧ avgRowOne.moisture_outliers = 0) ∧
      (∀ d, List.find? (fun p => p.1 == avgRowOne.plant_id) countsEntityOne =
          some d →
        avgRowOne.temperature_outliers = sigGet d.2 "temperature" ∧
        avgRowOne.moisture_outliers = sigGet d.2 "moisture")) :=
  ⟨by with_unfolding_all decide,
   aggregator_counts_default dfEntityOne cleanedEntityOne countsEntityOne
     avgRowOne (by with_unfolding_all decide)⟩

theorem leftMerge_cons {β : Type} (r : CombinedRow) (df : List CombinedRow)
    (t : List β) (km : CombinedRow → β → Bool)
    (upd : CombinedRow → β → CombinedRow) :
    leftMerge (r :: df) t km upd =
      (match t.filter (km r) with
        | [] => [r]
        | ps => ps.map (upd r)) ++ leftMerge df t km upd := rfl

/-- When every left row matches at most one right row, a left merge keeps
the row count. -/
theorem leftMerge_length {β : Type} (df : List CombinedRow) (t : List β)
    (km : CombinedRow → β → Bool) (upd : CombinedRow → β → CombinedRow)
    (ht : ∀ r, (t.filter (km r)).length ≤ 1) :
    (leftMerge df t km upd).length = df.length := by
  induction df with
  | nil => rfl
  | cons r df ih =>
    rw [leftMerge_cons, List.length_append, ih]
    have h1 : (match t.filter (km r) with
        | [] => [r]
        | ps => ps.map (upd r)).length = 1 := by
      cases hf : t.filter (km r) with
      | nil => rfl
      | cons b bs =>
        have hle := ht r
        rw [hf] at hle
        simp only [List.length_cons] at hle
        simp only [List.length_map, List.length_cons]
        omega
    rw [h1, List.length_cons]
    omega

/-- A column of pairwise-distinct keys matches any value at most once. -/
theorem filter_key_length_le_one {β γ : Type} [BEq γ] [LawfulBEq γ]
    (t : List β) (key : β → γ) (hnd : (t.map key).Nodup) (v : γ) :
    (t.filter fun b => key b == v).length ≤ 1 := by
  induction t with
  | nil => exact Nat.zero_le 1
  | cons b bs ih =>
    rw [List.map_cons, List.nodup_cons] at hnd
    obtain ⟨hb, hnd'⟩ := hnd
    by_cases hbv : key b = v
    · rw [List.filter_cons_of_pos (by simp [hbv])]
      have hrest : (bs.filter fun x => key x == v) = [] := by
        refine List.filter_eq_nil_iff.mpr fun x hx hbeq => ?_
        have hxv : key x = v := by simpa using hbeq
        exact hb (by rw [hbv, ← hxv]; exact List.mem_map_of_mem key hx)
      rw [hrest]
      exact Nat.le_refl 1
    · rw [List.filter_cons_of_neg (by simp [hbv])]
      exact ih hnd'

/-- A left row with no match passes through a left merge unchanged. -/
theorem leftMerge_mem_of_no_match {β : Type} (df : List CombinedRow)
    (t : List β) (km : CombinedRow → β → Bool)
    (upd : CombinedRow → β → CombinedRow) (r : CombinedRow)
    (hr : r ∈ df) (hf : t.filter (km r) = []) :
    r ∈ leftMerge df t km upd := by
  unfold leftMerge
  refine List.mem_flatMap.mpr ⟨r, hr, ?_⟩
  rw [hf]
  exact List.mem_singleton_self r

/-- One left row yields either itself (no match) or an updated copy per
matching right row; in particular some output row is either the row
itself or one update of it. -/
theorem leftMerge_step {β : Type} (df : List CombinedRow) (t : List β)
    (km : CombinedRow → β → Bool) (upd : CombinedRow → β → CombinedRow)
    (x : CombinedRow) (hx : x ∈ df) :
    ∃ x' ∈ leftMerge df t km upd,
      (t.filter (km x) = [] ∧ x' = x) ∨
      ∃ b ∈ t.filter (km x), x' = upd x b := by
  cases hf : t.filter (km x) with
  | nil => exact ⟨x, leftMerge_mem_of_no_match df t km upd x hx hf,
      Or.inl ⟨rfl, rfl⟩⟩
  | cons b bs =>
    refine ⟨upd x b, ?_, Or.inr ⟨b, List.mem_cons_self b bs, rfl⟩⟩
    unfold leftMerge
    refine List.mem_flatMap.mpr ⟨x, hx, ?_⟩
    rw [hf]
    exact List.mem_map_of_mem _ (List.mem_cons_self b bs)

/-- The Plant merge keeps every non-name column of a left row, and keeps
its name columns too when the row has no Plant match. -/
theorem mergePlant_step (df : List CombinedRow) (plant_df : List PlantRow)
    (x : CombinedRow) (hx : x ∈ df) :
    ∃ x' ∈ mergePlant df plant_df,
      x'.record_id = x.record_id ∧ x'.plant_id = x.plant_id ∧
      x'.location_id = x.location_id ∧ x'.botanist_id = x.botanist_id ∧
      x'.temperature = x.temperature ∧ x'.moisture = x.moisture ∧
      x'.location_name = x.location_name ∧ x'.country_id = x.country_id ∧
      x'.country_name = x.country_name ∧ x'.botanist_name = x.botanist_name ∧
      ((plant_df.filter fun p => p.plant_id == x.plant_id) = [] →
        x'.common_name = x.common_name ∧
          x'.scientific_name = x.scientific_name) := by
  obtain ⟨x', hmem, hcase⟩ := leftMerge_step df plant_df
    (fun r' p => p.plant_id == r'.plant_id)
    (fun r' p => { r' with common_name := some p.common_name,
                           scientific_name := some p.scientific_name }) x hx
  refine ⟨x', hmem, ?_⟩
  rcases hcase with ⟨hf, rfl⟩ | ⟨b, hb, rfl⟩
  · exact ⟨rfl, rfl, rfl, rfl, rfl, rfl, rfl, rfl, rfl, rfl,
      fun _ => ⟨rfl, rfl⟩⟩
  · obtain ⟨hb1, hb2⟩ := List.mem_filter.mp hb
    exact ⟨rfl, rfl, rfl, rfl, rfl, rfl, rfl, rfl, rfl, rfl,
      fun hcon => absurd hb2 (List.filter_eq_nil_iff.mp hcon b hb1)⟩

/-- The Location merge keeps every column other than `location_name` and
`country_id`, and keeps those too when the row has no Location match. -/
theorem mergeLocation_step (df : List CombinedRow)
    (location_df : List LocationRow) (x : CombinedRow) (hx : x ∈ df) :
    ∃ x' ∈ mergeLocation df location_df,
      x'.record_id = x.record_id ∧ x'.plant_id = x.plant_id ∧
      x'.location_id = x.location_id ∧ x'.botanist_id = x.botanist_id ∧
      x'.temperature = x.temperature ∧ x'.moisture = x.moisture ∧
      x'.common_name = x.common_name ∧
      x'.scientific_name = x.scientific_name ∧
      x'.country_name = x.country_name ∧ x'.botanist_name = x.botanist_name ∧
      ((location_df.filter fun l => l.location_id == x.location_id) = [] →
        x'.location_name = x.location_name ∧
          x'.country_id = x.country_id) := by
  obtain ⟨x', hmem, hcase⟩ := leftMerge_step df location_df
    (fun r' l => l.location_id == r'.location_id)
    (fun r' l => { r' with location_name := some l.location_name,
                           country_id := some l.country_id }) x hx
  refine ⟨x', hmem, ?_⟩
  rcases hcase with ⟨hf, rfl⟩ | ⟨b, hb, rfl⟩
  · exact ⟨rfl, rfl, rfl, rfl, rfl, rfl, rfl, rfl, rfl, rfl,
      fun _ => ⟨rfl, rfl⟩⟩
  · obtain ⟨hb1, hb2⟩ := List.mem_filter.mp hb
    exact ⟨rfl, rfl, rfl, rfl, rfl, rfl, rfl, rfl, rfl, rfl,
      fun hcon => absurd hb2 (List.filter_eq_nil_iff.mp hcon b hb1)⟩

/-- The Country merge keeps every column other than `country_name`, and
keeps it too when the row's (possibly null) country key has no match. -/
theorem mergeCountry_step (df : List CombinedRow)
    (country_df : List CountryRow) (x : CombinedRow) (hx : x ∈ df) :
    ∃ x' ∈ mergeCountry df country_df,
      x'.record_id = x.record_id ∧ x'.plant_id = x.plant_id ∧
      x'.location_id = x.location_id ∧ x'.botanist_id = x.botanist_id ∧
      x'.temperature = x.temperature ∧ x'.moisture = x.moisture ∧
      x'.common_name = x.common_name ∧
      x'.scientific_name = x.scientific_name ∧
      x'.location_name = x.location_name ∧ x'.country_id = x.country_id ∧
      x'.botanist_name = x.botanist_name ∧
      ((country_df.filter fun c => some c.country_id == x.country_id) = [] →
        x'.country_name = x.country_name) := by
  obtain ⟨x', hmem, hcase⟩ := leftMerge_step df country_df
    (fun r' c => some c.country_id == r'.country_id)
    (fun r' c => { r' with country_name := some c.country_name }) x hx
  refine ⟨x', hmem, ?_⟩
  rcases hcase with ⟨hf, rfl⟩ | ⟨b, hb, rfl⟩
  · exact ⟨rfl, rfl, rfl, rfl, rfl, rfl, rfl, rfl, rfl, rfl, rfl,
      fun _ => rfl⟩
  · obtain ⟨hb1, hb2⟩ := List.mem_filter.mp hb
    exact ⟨rfl, rfl, rfl, rfl, rfl, rfl, rfl, rfl, rfl, rfl, rfl,
      fun hcon => absurd hb2 (List.filter_eq_nil_iff.mp hcon b hb1)⟩

/-- The Botanist merge keeps every column other than `botanist_name`, and
keeps it too when the row has no Botanist match. -/
theorem mergeBotanist_step (df : List CombinedRow)
    (botanist_df : List BotanistRow) (x : CombinedRow) (hx : x ∈ df) :
    ∃ x' ∈ mergeBotanist df botanist_df,
      x'.record_id = x.record_id ∧ x'.plant_id = x.plant_id ∧
      x'.location_id = x.location_id ∧ x'.botanist_id = x.botanist_id ∧
      x'.temperature = x.temperature ∧ x'.moisture = x.moisture ∧
      x'.common_name = x.common_name ∧
      x'.scientific_name = x.scientific_name ∧
      x'.location_name = x.location_name ∧ x'.country_id = x.country_id ∧
      x'.country_name = x.country_name ∧
      ((botanist_df.filter fun b => b.botanist_id == x.botanist_id) = [] →
        x'.botanist_name = x.botanist_name) := by
  obtain ⟨x', hmem, hcase⟩ := leftMerge_step df botanist_df
    (fun r' b => b.botanist_id == r'.botanist_id)
    (fun r' b => { r' with botanist_name := some b.botanist_name }) x hx
  refine ⟨x', hmem, ?_⟩
  rcases hcase with ⟨hf, rfl⟩ | ⟨b, hb, rfl⟩
  · exact ⟨rfl, rfl, rfl, rfl, rfl, rfl, rfl, rfl, rfl, rfl, rfl,
      fun _ => rfl⟩
  · obtain ⟨hb1, hb2⟩ := List.mem_filter.mp hb
    exact ⟨rfl, rfl, rfl, rfl, rfl, rfl, rfl, rfl, rfl, rfl, rfl,
      fun hcon => absurd hb2 (List.filter_eq_nil_iff.mp hcon b hb1)⟩

/-- C8 (amended): `combine_tables` is the fixed left-outer join chain
fact → Plant → Location → Country → Botanist. Every fact row is
preserved: some output row carries its fact columns, with null markers
in a dimension's columns whenever that dimension has no matching row
(the name columns for Plant; location name and country key for Location;
country name for Country; botanist name for Botanist). When each
dimension table's join-key column is duplicate-free, the output has
exactly as many rows as the fact table (a duplicated key instead
multiplies the matching fact rows, one output row per match). -/
theorem combine_tables_left_join
    (country_df : List CountryRow) (botanist_df : List BotanistRow)
    (location_df : List LocationRow) (plant_df : List PlantRow)
    (record_df : List RecordRow) :
    (∀ r ∈ record_df,
      ∃ x ∈ combine_tables country_df botanist_df location_df plant_df
          record_df,
        x.record_id = r.record_id ∧ x.plant_id = r.plant_id ∧
        x.location_id = r.location_id ∧ x.botanist_id = r.botanist_id ∧
        x.temperature = r.temperature ∧ x.moisture = r.moisture ∧
        ((plant_df.filter fun p => p.plant_id == r.plant_id) = [] →
          x.common_name = none ∧ x.scientific_name = none) ∧
        ((location_df.filter fun l => l.location_id == r.location_id) = [] →
          x.location_name = none ∧ x.country_id = none) ∧
        ((country_df.filter fun c => some c.country_id == x.country_id) = [] →
          x.country_name = none) ∧
        ((botanist_df.filter fun b => b.botanist_id == r.botanist_id) = [] →
          x.botanist_name = none)) ∧
    ((plant_df.map fun p => p.plant_id).Nodup →
      (location_df.map fun l => l.location_id).Nodup →
      (country_df.map fun c => c.country_id).Nodup →
      (botanist_df.map fun b => b.botanist_id).Nodup →
      (combine_tables country_df botanist_df location_df plant_df
          record_df).length = record_df.length) := by
  constructor
  · intro r hr
    have hr0 : recordToCombined r ∈ record_df.map recordToCombined :=
      List.mem_map_of_mem _ hr
    obtain ⟨x1, hx1, a1, a2, a3, a4, a5, a6, a7, a8, a9, a10, acond⟩ :=
      mergePlant_step (record_df.map recordToCombined) plant_df
        (recordToCombined r) hr0
    obtain ⟨x2, hx2, b1, b2, b3, b4, b5, b6, b7, b8, b9, b10, bcond⟩ :=
      mergeLocation_step _ location_df x1 hx1
    obtain ⟨x3, hx3, c1, c2, c3, c4, c5, c6, c7, c8, c9, c10, c11, ccond⟩ :=
      mergeCountry_step _ country_df x2 hx2
    obtain ⟨x4, hx4, d1, d2, d3, d4, d5, d6, d7, d8, d9, d10, d11, dcond⟩ :=
      mergeBotanist_step _ botanist_df x3 hx3
    refine ⟨x4, hx4,
      d1.trans (c1.trans (b1.trans a1)),
      d2.trans (c2.trans (b2.trans a2)),
      d3.trans (c3.trans (b3.trans a3)),
      d4.trans (c4.trans (b4.trans a4)),
      d5.trans (c5.trans (b5.trans a5)),
      d6.trans (c6.trans (b6.trans a6)),
      fun hplant => ?_, fun hloc => ?_, fun hcountry => ?_, fun hbot => ?_⟩
    · obtain ⟨hcn, hsn⟩ := acond hplant
      exact ⟨(d7.trans (c7.trans b7)).trans hcn,
        (d8.trans (c8.trans b8)).trans hsn⟩
    · have hloc1 : (location_df.filter fun l =>
          l.location_id == x1.location_id) = [] := by
        rw [a3]
        exact hloc
      obtain ⟨hln, hci⟩ := bcond hloc1
      exact ⟨(d9.trans c9).trans (hln.trans a7),
        (d10.trans c10).trans (hci.trans a8)⟩
    · have hco1 : (country_df.filter fun c =>
          some c.country_id == x2.country_id) = [] := by
        rw [← c10, ← d10]
        exact hcountry
      exact d11.trans ((ccond hco1).trans (b9.trans a9))
    · have hbo1 : (botanist_df.filter fun b =>
          b.botanist_id == x3.botanist_id) = [] := by
        rw [c4, b4, a4]
        exact hbot
      exact (dcond hbo1).trans (c11.trans (b10.trans a10))
  · intro hp hl hc hb
    have hcs : (country_df.map fun c => some c.country_id).Nodup := by
      have h2 : ((country_df.map fun c => c.country_id).map some).Nodup :=
        hc.map (Option.some_injective Int)
      rwa [List.map_map] at h2
    unfold combine_tables mergeBotanist mergeCountry mergeLocation mergePlant
    rw [leftMerge_length _ _ _ _
        (fun r => filter_key_length_le_one botanist_df
          (fun b => b.botanist_id) hb r.botanist_id),
      leftMerge_length _ _ _ _
        (fun r => filter_key_length_le_one country_df
          (fun c => some c.country_id) hcs r.country_id),
      leftMerge_length _ _ _ _
        (fun r => filter_key_length_le_one location_df
          (fun l => l.location_id) hl r.location_id),
      leftMerge_length _ _ _ _
        (fun r => filter_key_length_le_one plant_df
          (fun p => p.plant_id) hp r.plant_id),
      List.length_map]

/-- Counterexample for C8 as stated: a duplicated plant key turns one fact
row into two combined rows, so the output row count exceeds the fact
table's. -/
theorem combine_rowcount_counterexample :
    (combine_tables [] [] [] cexPlantDup cexRecordOne).length ≠
      cexRecordOne.length := by
  with_unfolding_all decide

/-- Witness for the amended C8 on concrete tables: the row count under
duplicate-free keys, and the unmatched fact row (plant id 7) preserved
with null name markers. -/
theorem combine_tables_left_join_witness :
    (combine_tables wCountry wBotanist wLocation wPlant wRecord).length =
      wRecord.length ∧
    ∃ x ∈ combine_tables wCountry wBotanist wLocation wPlant wRecord,
      x.record_id = wRec2.record_id ∧ x.plant_id = wRec2.plant_id ∧
      x.location_id = wRec2.location_id ∧ x.botanist_id = wRec2.botanist_id ∧
      x.temperature = wRec2.temperature ∧ x.moisture = wRec2.moisture ∧
      x.common_name = none ∧ x.scientific_name = none := by
  obtain ⟨hpres, hlen⟩ := combine_tables_left_join wCountry wBotanist
    wLocation wPlant wRecord
  refine ⟨hlen (by with_unfolding_all decide) (by with_unfolding_all decide)
    (by with_unfolding_all decide) (by with_unfolding_all decide), ?_⟩
  obtain ⟨x, hx, h1, h2, h3, h4, h5, h6, hplant, -, -, -⟩ :=
    hpres wRec2 (by with_unfolding_all decide)
  obtain ⟨hcn, hsn⟩ := hplant (by with_unfolding_all decide)
  exact ⟨x, hx, h1, h2, h3, h4, h5, h6, hcn, hsn⟩

end ArchivePipeline
